import Mathlib

/-
Verification of the Smart-Pricing core engine (src/pricing/).

Shallow embedding conventions:
- Python floats and ints are modelled as exact real numbers (ℝ); the spec
  states the arithmetic identities exactly, with no floating-point rounding.
- SalesRecord.price / units_sold are Python ints; they are modelled as ℚ so
  that the record filters of demand_elasticity.py stay decidable/executable.
- Fallible Python code (raise ValueError / numpy LinAlgError / IndexError)
  is modelled with Except String.
- numpy helpers are modelled by their mathematical definitions:
  np.linspace, np.argmax (first index of the maximum), np.clip, and the
  closed-form 2x2 normal-equation solve used by np.linalg.inv on the
  ridge-regularized design matrix.
-/

namespace SmartPricing

/-- BomItem from src/pricing/domain_models.py. -/
structure BomItem where
  product_code : String
  part_name : String
  quantity : ℝ
  unit_price_usd : ℝ

/-- ManufacturingParams from src/pricing/domain_models.py. -/
structure ManufacturingParams where
  smd_cost_per_component : ℝ
  tht_cost_per_component : ℝ
  assembly_time_min : ℝ
  qc_test_time_min : ℝ
  worker_hour_cost : ℝ

/-- LogisticsParams from src/pricing/domain_models.py. -/
structure LogisticsParams where
  shipping_cost_usd : ℝ
  custom_clearance_irr : ℝ
  duty_percent : ℝ
  exchange_rate_buy : ℝ

/-- InventoryParams from src/pricing/domain_models.py. -/
structure InventoryParams where
  inventory_days : ℝ
  capital_cost_rate : ℝ

/-- FinanceParams from src/pricing/domain_models.py. -/
structure FinanceParams where
  exchange_rate_now : ℝ
  target_margin_percent : ℝ
  competitor_price_avg : ℝ

/-- CostBreakdown from src/pricing/domain_models.py (five stored components). -/
structure CostBreakdown where
  bom_cost_irr : ℝ
  assembly_cost_irr : ℝ
  labor_cost_irr : ℝ
  logistics_cost_irr : ℝ
  inventory_cost_irr : ℝ

/-- CostBreakdown.total_cost_irr property from src/pricing/domain_models.py. -/
def CostBreakdown.total_cost_irr (cb : CostBreakdown) : ℝ :=
  cb.bom_cost_irr + cb.assembly_cost_irr + cb.labor_cost_irr
    + cb.logistics_cost_irr + cb.inventory_cost_irr

/-- compute_cost_breakdown from src/pricing/pricing_engine.py. -/
noncomputable def compute_cost_breakdown (bom_items : List BomItem)
    (manufacturing : ManufacturingParams) (logistics : LogisticsParams)
    (inventory : InventoryParams) : CostBreakdown :=
  let total_components := (bom_items.map fun item => item.quantity).sum
  let bom_cost_usd := (bom_items.map fun item => item.quantity * item.unit_price_usd).sum
  let bom_cost_irr := bom_cost_usd * logistics.exchange_rate_buy
  let assembly_cost_irr := total_components *
    (manufacturing.smd_cost_per_component + manufacturing.tht_cost_per_component)
  let labor_time_hours := (manufacturing.assembly_time_min + manufacturing.qc_test_time_min) / 60
  let labor_cost_irr := labor_time_hours * manufacturing.worker_hour_cost
  let logistics_cost_irr :=
    logistics.shipping_cost_usd * logistics.exchange_rate_buy
      + logistics.custom_clearance_irr
      + (logistics.duty_percent / 100) * bom_cost_irr
  let inventory_cost_irr := bom_cost_irr * (inventory.inventory_days / 365) *
    (inventory.capital_cost_rate / 100)
  ⟨bom_cost_irr, assembly_cost_irr, labor_cost_irr, logistics_cost_irr, inventory_cost_irr⟩

/-- SalesRecord from src/pricing/services/sales_csv_loader.py (price and
units_sold are Python ints, modelled as ℚ to keep the filters decidable). -/
structure SalesRecord where
  month : String
  product_code : String
  price : ℚ
  units_sold : ℚ

/-- ElasticityModel from src/pricing/ml/demand_elasticity.py; the fields
stashed on the model post-hoc via dynamic attributes (_stderr_b, _b_raw,
_regularization_strength, _elasticity_bounds) are ordinary fields here. -/
structure ElasticityModel where
  product_code : String
  a : ℝ
  b : ℝ
  r2 : ℝ
  avg_price : ℝ
  stderr_b : ℝ
  b_raw : ℝ
  regularization_strength : ℝ
  elasticity_bounds : ℝ × ℝ

/-- ElasticityResult from src/pricing/ml/demand_elasticity.py. -/
structure ElasticityResult where
  product_code : String
  elasticity : ℝ
  optimal_price : ℝ
  predicted_units_at_optimal : ℝ
  max_profit : ℝ
  price_grid : List ℝ
  profit_grid : List ℝ
  elasticity_ci : Option (ℝ × ℝ)
  optimal_price_ci : Option (ℝ × ℝ)
  confidence_level : Option String
  regularized : Bool
  regularization_strength : ℝ
  elasticity_bounds : Option (ℝ × ℝ)
  cost_factors : Option (List ℝ)
  sensitivity_matrix : Option (List (List ℝ))
  all_negative : Bool

/-- Python truthiness of `x or 0` for a numeric x (0 stays 0, anything else
is itself); used for the competitor anchor in compute_recommended_price. -/
noncomputable def pyOrZero (x : ℝ) : ℝ := if x = 0 then 0 else x

/-- choose_final_price from src/pricing/pricing_engine.py: cost-plus when no
elasticity result, otherwise the fixed 70% ML / 30% cost-plus blend. -/
noncomputable def choose_final_price (cost_plus_price : ℝ)
    (elasticity_result : Option ElasticityResult) : ℝ :=
  match elasticity_result with
  | none => cost_plus_price
  | some er => 0.7 * er.optimal_price + 0.3 * cost_plus_price

/-- The dict returned by merge_cost_plus_and_ml_price, as a structure. -/
structure MergeResult where
  cost_plus_price : ℝ
  optimal_price_ml : Option ℝ
  final_suggested_price : ℝ

/-- merge_cost_plus_and_ml_price from src/pricing/pricing_engine.py. -/
noncomputable def merge_cost_plus_and_ml_price (cost_plus_price : ℝ)
    (elasticity_result : Option ElasticityResult) : MergeResult :=
  ⟨cost_plus_price, elasticity_result.map fun er => er.optimal_price,
    choose_final_price cost_plus_price elasticity_result⟩

/-- The dict returned by compute_recommended_price, as a structure (keys that
are only present when an elasticity result is supplied are Options). -/
structure RecommendedPriceData where
  cost_plus_price : ℝ
  final_suggested_price : ℝ
  optimal_price_ml : Option ℝ
  elasticity : Option ℝ
  max_profit_ml : Option ℝ

/-- compute_recommended_price from src/pricing/pricing_engine.py. -/
noncomputable def compute_recommended_price (cost_breakdown : CostBreakdown)
    (finance : FinanceParams) (elasticity_result : Option ElasticityResult) :
    RecommendedPriceData :=
  let base_price := cost_breakdown.total_cost_irr * (1 + finance.target_margin_percent / 100)
  let competitor_anchor := pyOrZero finance.competitor_price_avg
  let cost_plus_price := max base_price competitor_anchor
  let merged := merge_cost_plus_and_ml_price cost_plus_price elasticity_result
  match elasticity_result with
  | none => ⟨cost_plus_price, merged.final_suggested_price, merged.optimal_price_ml, none, none⟩
  | some er => ⟨cost_plus_price, merged.final_suggested_price, merged.optimal_price_ml,
      some er.elasticity, some er.max_profit⟩

/-- The final-price selection of ai_insights_view (src/pricing/views.py,
lines 500-516): keep the base recommendation when the optimizer flags
all_negative, otherwise average it 50/50 with the ML optimal price. -/
noncomputable def ai_insights_final_price (base_recommended_price : ℝ)
    (elasticity_result : Option ElasticityResult) : ℝ :=
  match elasticity_result with
  | none => base_recommended_price
  | some er =>
    if er.all_negative then base_recommended_price
    else (base_recommended_price + er.optimal_price) / 2

/-- The record filter of _fit_log_log_ridge (src/pricing/ml/demand_elasticity.py):
keep records with price > 0 and units_sold > 0 (anything else is log-undefined). -/
def valid_sales (records : List SalesRecord) : List SalesRecord :=
  records.filter fun rec => decide (0 < rec.price ∧ 0 < rec.units_sold)

/-- np.clip(x, lo, hi) = min(hi, max(x, lo)). -/
noncomputable def np_clip (x lo hi : ℝ) : ℝ := min hi (max x lo)

/-- xs of _fit_log_log_ridge: logs of the valid prices. -/
noncomputable def ridge_xs (records : List SalesRecord) : List ℝ :=
  (valid_sales records).map fun rec => Real.log (rec.price : ℝ)

/-- ys of _fit_log_log_ridge: logs of the valid units_sold. -/
noncomputable def ridge_ys (records : List SalesRecord) : List ℝ :=
  (valid_sales records).map fun rec => Real.log (rec.units_sold : ℝ)

/-- Determinant of XᵗX + λI for the design X = [1 x] of _fit_log_log_ridge:
XᵗX = [[n, Σx], [Σx, Σx²]].  np.linalg.inv raises LinAlgError exactly when
this determinant is zero. -/
noncomputable def ridge_det (records : List SalesRecord) (lam : ℝ) : ℝ :=
  (((ridge_xs records).length : ℝ) + lam) *
      ((((ridge_xs records).map fun x => x * x).sum) + lam)
    - (ridge_xs records).sum * (ridge_xs records).sum

/-- Intercept a of the ridge solve (first row of (XᵗX+λI)⁻¹ Xᵗy). -/
noncomputable def ridge_a (records : List SalesRecord) (lam : ℝ) : ℝ :=
  (((((ridge_xs records).map fun x => x * x).sum) + lam) * (ridge_ys records).sum
      - (ridge_xs records).sum *
        (List.zipWith (fun x y => x * y) (ridge_xs records) (ridge_ys records)).sum)
    / ridge_det records lam

/-- Slope b of the ridge solve (second row of (XᵗX+λI)⁻¹ Xᵗy). -/
noncomputable def ridge_b (records : List SalesRecord) (lam : ℝ) : ℝ :=
  ((((ridge_xs records).length : ℝ) + lam) *
        (List.zipWith (fun x y => x * y) (ridge_xs records) (ridge_ys records)).sum
      - (ridge_xs records).sum * (ridge_ys records).sum)
    / ridge_det records lam

/-- Total sum of squares of _fit_log_log_ridge. -/
noncomputable def ridge_ss_tot (records : List SalesRecord) : ℝ :=
  ((ridge_ys records).map fun y =>
    (y - (ridge_ys records).sum / ((ridge_ys records).length : ℝ)) *
      (y - (ridge_ys records).sum / ((ridge_ys records).length : ℝ))).sum

/-- Residual sum of squares of _fit_log_log_ridge. -/
noncomputable def ridge_ss_res (records : List SalesRecord) (lam : ℝ) : ℝ :=
  (List.zipWith (fun x y =>
      (y - (ridge_a records lam + ridge_b records lam * x)) *
        (y - (ridge_a records lam + ridge_b records lam * x)))
    (ridge_xs records) (ridge_ys records)).sum

/-- R² of _fit_log_log_ridge (0 when the total variance vanishes). -/
noncomputable def ridge_r2 (records : List SalesRecord) (lam : ℝ) : ℝ :=
  if 0 < ridge_ss_tot records then 1 - ridge_ss_res records lam / ridge_ss_tot records
  else 0

/-- Approximate stderr of the slope in _fit_log_log_ridge:
sqrt(max(sigma2 · ((n+λ)/det), 0)) with sigma2 = ss_res / max(n-2, 1). -/
noncomputable def ridge_stderr_b (records : List SalesRecord) (lam : ℝ) : ℝ :=
  Real.sqrt (max
    ((if 0 < max ((ridge_ys records).length - 2) 1 then
        ridge_ss_res records lam / ((max ((ridge_ys records).length - 2) 1 : ℕ) : ℝ)
      else 0) *
      ((((ridge_xs records).length : ℝ) + lam) / ridge_det records lam)) 0)

/-- _fit_log_log_ridge from src/pricing/ml/demand_elasticity.py.
Returns (a, b, r2, stderr_b); raises for fewer than 3 valid points, and a
LinAlgError ("Singular matrix") from np.linalg.inv when the regularized
normal matrix is singular.  The named ridge_* definitions above are the
Python locals of the function. -/
noncomputable def _fit_log_log_ridge (records : List SalesRecord)
    (regularization_strength : ℝ) : Except String (ℝ × ℝ × ℝ × ℝ) :=
  if (ridge_xs records).length < 3 then
    .error "Not enough valid sales points to fit elasticity (need >= 3)."
  else if ridge_det records regularization_strength = 0 then
    .error "Singular matrix"
  else
    .ok (ridge_a records regularization_strength, ridge_b records regularization_strength,
      ridge_r2 records regularization_strength, ridge_stderr_b records regularization_strength)

/-- fit_elasticity_for_product from src/pricing/ml/demand_elasticity.py.
Note the average price is taken over the records with price > 0 only (the
units_sold filter of the fit is not applied there), exactly as in the source;
records[0] on an empty list would be a Python IndexError. -/
noncomputable def fit_elasticity_for_product (records : List SalesRecord)
    (regularization_strength : ℝ) (elasticity_bounds : ℝ × ℝ) :
    Except String ElasticityModel :=
  match _fit_log_log_ridge records regularization_strength with
  | .error e => .error e
  | .ok (a, b_raw, r2, stderr_b) =>
    let b_clamped := np_clip b_raw elasticity_bounds.1 elasticity_bounds.2
    let priced := records.filter fun rec => decide (0 < rec.price)
    let avg_price : ℝ := ((priced.map fun rec => (rec.price : ℝ)).sum) / (priced.length : ℝ)
    match records with
    | [] => .error "IndexError: list index out of range"
    | r0 :: _ =>
      .ok ⟨r0.product_code, a, b_clamped, r2, avg_price, stderr_b, b_raw,
        regularization_strength, elasticity_bounds⟩

/-- np.linspace(start, stop, num): num evenly spaced points including both
endpoints (a single point is the start; zero points is the empty list). -/
noncomputable def linspace (start stop : ℝ) (num : ℕ) : List ℝ :=
  if num = 1 then [start]
  else (List.range num).map fun (i : ℕ) =>
    start + (i : ℝ) * ((stop - start) / ((num : ℝ) - 1))

/-- np.argmax: index of the first occurrence of the maximum of the list
(numpy scans left to right and only replaces on a strictly greater value).
numpy raises on an empty list; the 0 returned here is never used on one. -/
noncomputable def argmax : List ℝ → ℕ
  | [] => 0
  | [_] => 0
  | x :: y :: rest =>
    let k := argmax (y :: rest)
    if x < (y :: rest).getD k 0 then k + 1 else 0

/-- Predicted demand exp(a + b·ln p) at price p (loop body of
compute_optimal_price in src/pricing/ml/demand_elasticity.py). -/
noncomputable def demand_at (model : ElasticityModel) (p : ℝ) : ℝ :=
  Real.exp (model.a + model.b * Real.log p)

/-- Profit (p - cost) · q at price p (loop body of compute_optimal_price). -/
noncomputable def profit_at (model : ElasticityModel) (cost_per_unit p : ℝ) : ℝ :=
  (p - cost_per_unit) * demand_at model p

/-- The price grid of compute_optimal_price: linspace over
[0.8 · avg_price, 1.5 · avg_price]. -/
noncomputable def price_grid_of (model : ElasticityModel) (num_points : ℕ) : List ℝ :=
  linspace (0.8 * model.avg_price) (1.5 * model.avg_price) num_points

/-- The profit list of compute_optimal_price over the price grid. -/
noncomputable def profits_of (model : ElasticityModel) (cost_per_unit : ℝ)
    (num_points : ℕ) : List ℝ :=
  (price_grid_of model num_points).map (profit_at model cost_per_unit)

/-- max_idx = int(np.argmax(profits)) in compute_optimal_price. -/
noncomputable def max_idx_of (model : ElasticityModel) (cost_per_unit : ℝ)
    (num_points : ℕ) : ℕ :=
  argmax (profits_of model cost_per_unit num_points)

/-- optimal_price = price_grid[max_idx] in compute_optimal_price. -/
noncomputable def optimal_price_of (model : ElasticityModel) (cost_per_unit : ℝ)
    (num_points : ℕ) : ℝ :=
  (price_grid_of model num_points).getD (max_idx_of model cost_per_unit num_points) 0

/-- max_profit = profits[max_idx] in compute_optimal_price. -/
noncomputable def max_profit_of (model : ElasticityModel) (cost_per_unit : ℝ)
    (num_points : ℕ) : ℝ :=
  (profits_of model cost_per_unit num_points).getD (max_idx_of model cost_per_unit num_points) 0

/-- candidate_prices of compute_optimal_price: the grid prices whose profit is
at least 90% of the maximum profit (threshold = max_profit * 0.9). -/
noncomputable def candidate_prices (model : ElasticityModel) (cost_per_unit : ℝ)
    (num_points : ℕ) : List ℝ :=
  (((price_grid_of model num_points).zip (profits_of model cost_per_unit num_points)).filter
    fun pp => decide (max_profit_of model cost_per_unit num_points * 0.9 ≤ pp.2)).map Prod.fst

/-- compute_optimal_price from src/pricing/ml/demand_elasticity.py. -/
noncomputable def compute_optimal_price (model : ElasticityModel)
    (cost_per_unit : ℝ) (num_points : ℕ) : ElasticityResult :=
  let price_grid := price_grid_of model num_points
  let profits := profits_of model cost_per_unit num_points
  let units_list := price_grid.map (demand_at model)
  let max_idx := max_idx_of model cost_per_unit num_points
  let optimal_price := optimal_price_of model cost_per_unit num_points
  let max_profit := max_profit_of model cost_per_unit num_points
  let predicted_units := units_list.getD max_idx 0
  let all_negative : Bool := decide (max_profit < 0)
  let b_low := model.b_raw - 1.96 * model.stderr_b
  let b_high := model.b_raw + 1.96 * model.stderr_b
  let cand := candidate_prices model cost_per_unit num_points
  let price_ci : ℝ × ℝ :=
    match cand with
    | [] => (optimal_price, optimal_price)
    | p :: ps => (ps.foldl min p, ps.foldl max p)
  let span := price_ci.2 - price_ci.1
  let rel_span := if 0 < optimal_price then span / optimal_price else 1
  let confidence : String :=
    if rel_span < 0.05 then "high" else if rel_span < 0.15 then "medium" else "low"
  let cost_factors : List ℝ := [0.9, 1, 1.1, 1.2]
  let sensitivity_matrix := cost_factors.map fun f =>
    price_grid.map fun p => (p - cost_per_unit * f) * demand_at model p
  ⟨model.product_code, model.b, optimal_price, predicted_units, max_profit,
    price_grid, profits, some (b_low, b_high), some price_ci, some confidence,
    decide (model.regularization_strength ≠ 0), model.regularization_strength,
    some model.elasticity_bounds, some cost_factors, some sensitivity_matrix,
    all_negative⟩

/-- FxHistoryPoint from src/pricing/services/fx_csv_loader.py; the date is a
calendar day as an integer ordinal (datetime.date arithmetic is day-exact). -/
structure FxHistoryPoint where
  date : ℤ
  rate : ℝ

/-- FxForecastResult from src/pricing/ml/fx_forecast.py. -/
structure FxForecastResult where
  history_dates : List ℤ
  history_rates : List ℝ
  forecast_dates : List ℤ
  forecast_rates : List ℝ
  forecast_low : List ℝ
  forecast_high : List ℝ
  slope : ℝ
  intercept : ℝ
  r2 : ℝ

/-- fit_linear_trend from src/pricing/ml/fx_forecast.py.  np.linalg.lstsq on
the two-column design [1 t] is modelled by the normal-equation closed form,
with which it coincides whenever at least two distinct dates are present
(full-rank design; the claims under verification do not depend on the
coefficient values). -/
noncomputable def fit_linear_trend (points : List FxHistoryPoint) :
    Except String (ℝ × ℝ × ℝ) :=
  if points.length < 5 then .error "Need at least 5 FX points to fit a trend."
  else
    let base_date := (points.headD ⟨0, 0⟩).date
    let t_vals := points.map fun p => ((p.date - base_date : ℤ) : ℝ)
    let y_vals := points.map fun p => p.rate
    let n : ℝ := points.length
    let st := t_vals.sum
    let stt := (t_vals.map fun t => t * t).sum
    let sy := y_vals.sum
    let sty := (List.zipWith (fun t y => t * y) t_vals y_vals).sum
    let den := n * stt - st * st
    let slope := (n * sty - st * sy) / den
    let intercept := (sy - slope * st) / n
    let ss_tot := (y_vals.map fun y => (y - sy / n) * (y - sy / n)).sum
    let ss_res := (List.zipWith (fun t y =>
      (y - (intercept + slope * t)) * (y - (intercept + slope * t))) t_vals y_vals).sum
    let r2 := if 0 < ss_tot then 1 - ss_res / ss_tot else 0
    .ok (intercept, slope, r2)

/-- forecast_fx from src/pricing/ml/fx_forecast.py. -/
noncomputable def forecast_fx (points : List FxHistoryPoint) (horizon_days : ℤ)
    (ci_z : ℝ) : Except String FxForecastResult :=
  if horizon_days ≤ 0 then .error "horizon_days must be positive."
  else
    match fit_linear_trend points with
    | .error e => .error e
    | .ok (intercept, slope, r2) =>
      let base_date := (points.headD ⟨0, 0⟩).date
      let t_hist := points.map fun p => ((p.date - base_date : ℤ) : ℝ)
      let y_hist := points.map fun p => p.rate
      let ss_res := (List.zipWith (fun t y =>
        (y - (intercept + slope * t)) * (y - (intercept + slope * t))) t_hist y_hist).sum
      let dof : ℕ := max (points.length - 2) 1
      let sigma := if 0 < dof then Real.sqrt (ss_res / (dof : ℝ)) else 0
      let last_date := (points.getLastD ⟨0, 0⟩).date
      let t_start : ℤ := (last_date - base_date) + 1
      let horizon : ℕ := horizon_days.toNat
      let forecast_dates := (List.range horizon).map fun (i : ℕ) => last_date + (i : ℤ) + 1
      let forecast_rates := (List.range horizon).map fun (i : ℕ) =>
        intercept + slope * ((t_start : ℝ) + (i : ℝ))
      let forecast_low := (List.range horizon).map fun (i : ℕ) =>
        intercept + slope * ((t_start : ℝ) + (i : ℝ)) - ci_z * sigma
      let forecast_high := (List.range horizon).map fun (i : ℕ) =>
        intercept + slope * ((t_start : ℝ) + (i : ℝ)) + ci_z * sigma
      .ok ⟨points.map fun p => p.date, y_hist, forecast_dates, forecast_rates,
        forecast_low, forecast_high, slope, intercept, r2⟩

/-- A concrete optimizer result whose all_negative flag is set (its
optimal_price is 100). -/
noncomputable def er_neg : ElasticityResult :=
  ⟨"P1", -1, 100, 0, -5, [], [], none, none, none, false, 0, none, none, none, true⟩

/-- Three sales records, all with price 1 and units_sold 1 (all valid). -/
def recs3 : List SalesRecord :=
  [⟨"2024-01", "P", 1, 1⟩, ⟨"2024-02", "P", 1, 1⟩, ⟨"2024-03", "P", 1, 1⟩]

/-- recs3 plus one record with positive price but zero units_sold: it is
excluded from the fit but included in the stored average price. -/
def recs4 : List SalesRecord := recs3 ++ [⟨"2024-04", "P", 2, 0⟩]

/-- The model fit_elasticity_for_product returns on recs3 with lambda = 1. -/
noncomputable def model3 : ElasticityModel := ⟨"P", 0, -0.3, 0, 1, 0, 0, 1, (-3, -0.3)⟩

/-- The model fit_elasticity_for_product returns on recs4 with lambda = 1:
its avg_price is (1+1+1+2)/4 = 5/4, not the mean 1 of the fitted records. -/
noncomputable def model4 : ElasticityModel := ⟨"P", 0, -0.3, 0, 5 / 4, 0, 0, 1, (-3, -0.3)⟩

/-- A concrete elasticity model with a = 0, b = 0 and avg_price = 1, so the
predicted demand is exp 0 = 1 at every grid price. -/
noncomputable def model0 : ElasticityModel := ⟨"P", 0, 0, 0, 1, 0, 0, 0, (-3, -0.3)⟩

/-- Five FX history points on consecutive days. -/
noncomputable def points5 : List FxHistoryPoint :=
  [⟨0, 1⟩, ⟨1, 2⟩, ⟨2, 3⟩, ⟨3, 4⟩, ⟨4, 5⟩]

theorem linspace_length (start stop : ℝ) (num : ℕ) :
    (linspace start stop num).length = num := by
  unfold linspace
  split
  · simp [*]
  · simp

theorem linspace_mem_bounds (start stop : ℝ) (num : ℕ) (h : start ≤ stop) :
    ∀ p ∈ linspace start stop num, start ≤ p ∧ p ≤ stop := by
  intro p hp
  unfold linspace at hp
  split at hp
  · rw [List.mem_singleton] at hp
    subst hp
    exact ⟨le_refl _, h⟩
  · rename_i hne
    obtain ⟨i, hi, rfl⟩ := List.mem_map.1 hp
    have hilt : i < num := List.mem_range.1 hi
    have hnum2 : 2 ≤ num := by omega
    have hden : (0 : ℝ) < (num : ℝ) - 1 := by
      have : (2 : ℝ) ≤ (num : ℝ) := by exact_mod_cast hnum2
      linarith
    have hstep : 0 ≤ (stop - start) / ((num : ℝ) - 1) :=
      div_nonneg (by linarith) hden.le
    have hlow : 0 ≤ (i : ℝ) * ((stop - start) / ((num : ℝ) - 1)) :=
      mul_nonneg (Nat.cast_nonneg i) hstep
    have hiub : (i : ℝ) ≤ (num : ℝ) - 1 := by
      have : (i : ℝ) + 1 ≤ (num : ℝ) := by exact_mod_cast hilt
      linarith
    have hupp : (i : ℝ) * ((stop - start) / ((num : ℝ) - 1)) ≤ stop - start := by
      have h1 := mul_le_mul_of_nonneg_right hiub hstep
      have h2 : ((num : ℝ) - 1) * ((stop - start) / ((num : ℝ) - 1)) = stop - start := by
        field_simp
      linarith
    exact ⟨by linarith, by linarith⟩

theorem getD_map_real (f : ℝ → ℝ) (l : List ℝ) (i : ℕ) (h : i < l.length) :
    (l.map f).getD i 0 = f (l.getD i 0) := by
  rw [List.getD_eq_getElem _ _ (by simpa using h), List.getD_eq_getElem _ _ h]
  simp

theorem getD_mem_of_lt (l : List ℝ) (i : ℕ) (h : i < l.length) : l.getD i 0 ∈ l := by
  rw [List.getD_eq_getElem _ _ h]
  exact List.getElem_mem h

theorem argmax_lt_length : ∀ l : List ℝ, l ≠ [] → argmax l < l.length
  | [], h => absurd rfl h
  | [_], _ => by simp [argmax]
  | x :: y :: rest, _ => by
    have ih := argmax_lt_length (y :: rest) (by simp)
    simp only [argmax]
    split
    · simpa using Nat.succ_lt_succ ih
    · simp

theorem argmax_is_max : ∀ (l : List ℝ) (j : ℕ), j < l.length →
    l.getD j 0 ≤ l.getD (argmax l) 0
  | [], j, h => by simp at h
  | [x], j, h => by
    have hj : j = 0 := by simpa using h
    subst hj
    simp [argmax]
  | x :: y :: rest, j, h => by
    have ih := fun j hj => argmax_is_max (y :: rest) j hj
    simp only [argmax]
    split
    · rename_i hc
      rw [List.getD_cons_succ]
      cases j with
      | zero => exact le_of_lt hc
      | succ j' =>
        rw [List.getD_cons_succ]
        exact ih j' (by simpa using h)
    · rename_i hc
      rw [List.getD_cons_zero]
      cases j with
      | zero => rw [List.getD_cons_zero]
      | succ j' =>
        rw [List.getD_cons_succ]
        exact le_trans (ih j' (by simpa using h)) (not_lt.1 hc)

theorem argmax_first : ∀ (l : List ℝ) (j : ℕ), j < argmax l →
    l.getD j 0 < l.getD (argmax l) 0
  | [], j, h => by simp [argmax] at h
  | [x], j, h => by simp [argmax] at h
  | x :: y :: rest, j, h => by
    have ih := fun j hj => argmax_first (y :: rest) j hj
    by_cases hc : x < (y :: rest).getD (argmax (y :: rest)) 0
    · simp only [argmax] at h ⊢
      rw [if_pos hc] at h ⊢
      rw [List.getD_cons_succ]
      cases j with
      | zero => exact hc
      | succ j' =>
        rw [List.getD_cons_succ]
        exact ih j' (by omega)
    · simp only [argmax] at h
      rw [if_neg hc] at h
      omega

theorem compute_optimal_price_price_grid (model : ElasticityModel)
    (cost_per_unit : ℝ) (num_points : ℕ) :
    (compute_optimal_price model cost_per_unit num_points).price_grid =
      price_grid_of model num_points := rfl

theorem compute_optimal_price_profit_grid (model : ElasticityModel)
    (cost_per_unit : ℝ) (num_points : ℕ) :
    (compute_optimal_price model cost_per_unit num_points).profit_grid =
      profits_of model cost_per_unit num_points := rfl

theorem compute_optimal_price_optimal_price (model : ElasticityModel)
    (cost_per_unit : ℝ) (num_points : ℕ) :
    (compute_optimal_price model cost_per_unit num_points).optimal_price =
      optimal_price_of model cost_per_unit num_points := rfl

theorem compute_optimal_price_max_profit (model : ElasticityModel)
    (cost_per_unit : ℝ) (num_points : ℕ) :
    (compute_optimal_price model cost_per_unit num_points).max_profit =
      max_profit_of model cost_per_unit num_points := rfl

theorem compute_optimal_price_all_negative (model : ElasticityModel)
    (cost_per_unit : ℝ) (num_points : ℕ) :
    (compute_optimal_price model cost_per_unit num_points).all_negative =
      decide (max_profit_of model cost_per_unit num_points < 0) := rfl

/-- C1: for every CostBreakdown the derived total cost equals the arithmetic
sum of its five stored components, and in particular this holds for the
breakdown returned by compute_cost_breakdown on any BomItem list. -/
theorem C1_total_cost_is_component_sum :
    (∀ cb : CostBreakdown, cb.total_cost_irr =
      cb.bom_cost_irr + cb.assembly_cost_irr + cb.labor_cost_irr
        + cb.logistics_cost_irr + cb.inventory_cost_irr) ∧
    (∀ (bom_items : List BomItem) (m : ManufacturingParams) (lg : LogisticsParams)
      (iv : InventoryParams),
      (compute_cost_breakdown bom_items m lg iv).total_cost_irr =
        (compute_cost_breakdown bom_items m lg iv).bom_cost_irr
          + (compute_cost_breakdown bom_items m lg iv).assembly_cost_irr
          + (compute_cost_breakdown bom_items m lg iv).labor_cost_irr
          + (compute_cost_breakdown bom_items m lg iv).logistics_cost_irr
          + (compute_cost_breakdown bom_items m lg iv).inventory_cost_irr) :=
  ⟨fun _ => rfl, fun _ _ _ _ => rfl⟩

/-- C2: for fixed BomItems with non-negative quantities and unit prices and
non-negative logistics/inventory parameters, the total cost returned by
compute_cost_breakdown is monotone in exchange_rate_buy. -/
theorem C2_total_cost_monotone_in_rate (bom_items : List BomItem)
    (m : ManufacturingParams) (lg : LogisticsParams) (iv : InventoryParams)
    (r1 r2 : ℝ)
    (hitems : ∀ it ∈ bom_items, 0 ≤ it.quantity ∧ 0 ≤ it.unit_price_usd)
    (hship : 0 ≤ lg.shipping_cost_usd) (hduty : 0 ≤ lg.duty_percent)
    (hdays : 0 ≤ iv.inventory_days) (hccr : 0 ≤ iv.capital_cost_rate)
    (hr : r1 ≤ r2) :
    (compute_cost_breakdown bom_items m { lg with exchange_rate_buy := r1 } iv).total_cost_irr ≤
      (compute_cost_breakdown bom_items m { lg with exchange_rate_buy := r2 } iv).total_cost_irr := by
  have hB : 0 ≤ (bom_items.map fun item => item.quantity * item.unit_price_usd).sum := by
    apply List.sum_nonneg
    intro x hx
    obtain ⟨it, hit, rfl⟩ := List.mem_map.1 hx
    exact mul_nonneg (hitems it hit).1 (hitems it hit).2
  simp only [compute_cost_breakdown, CostBreakdown.total_cost_irr]
  set B := (bom_items.map fun item => item.quantity * item.unit_price_usd).sum with hBdef
  have hK : 0 ≤ B + lg.shipping_cost_usd + lg.duty_percent / 100 * B
      + B * (iv.inventory_days / 365) * (iv.capital_cost_rate / 100) := by
    have h1 : 0 ≤ lg.duty_percent / 100 * B :=
      mul_nonneg (div_nonneg hduty (by norm_num)) hB
    have h2 : 0 ≤ B * (iv.inventory_days / 365) * (iv.capital_cost_rate / 100) :=
      mul_nonneg (mul_nonneg hB (div_nonneg hdays (by norm_num)))
        (div_nonneg hccr (by norm_num))
    linarith
  nlinarith [mul_nonneg (sub_nonneg.2 hr) hK]

/-- C2 witness: a concrete instance of the monotonicity theorem. -/
theorem C2_witness :
    (compute_cost_breakdown [⟨"P1", "R", 2, 5⟩] ⟨100, 50, 30, 15, 200⟩
        { shipping_cost_usd := 20, custom_clearance_irr := 100000, duty_percent := 10,
          exchange_rate_buy := 1 } ⟨365, 10⟩).total_cost_irr ≤
      (compute_cost_breakdown [⟨"P1", "R", 2, 5⟩] ⟨100, 50, 30, 15, 200⟩
        { shipping_cost_usd := 20, custom_clearance_irr := 100000, duty_percent := 10,
          exchange_rate_buy := 2 } ⟨365, 10⟩).total_cost_irr := by
  have h := C2_total_cost_monotone_in_rate [⟨"P1", "R", 2, 5⟩] ⟨100, 50, 30, 15, 200⟩
    ⟨20, 100000, 10, 1⟩ ⟨365, 10⟩ 1 2
    (by intro it hit; simp at hit; subst hit; norm_num)
    (by norm_num) (by norm_num) (by norm_num) (by norm_num) (by norm_num)
  simpa using h

/-- C3: compute_recommended_price reports cost_plus_price equal to
max(total_cost * (1 + margin/100), competitor_price_avg); in particular when
the competitor average exceeds the margin-based base price it equals the
competitor average exactly. -/
theorem C3_cost_plus_price_is_max (cb : CostBreakdown) (finance : FinanceParams)
    (er : Option ElasticityResult) :
    (compute_recommended_price cb finance er).cost_plus_price =
      max (cb.total_cost_irr * (1 + finance.target_margin_percent / 100))
        finance.competitor_price_avg ∧
    (cb.total_cost_irr * (1 + finance.target_margin_percent / 100) <
        finance.competitor_price_avg →
      (compute_recommended_price cb finance er).cost_plus_price =
        finance.competitor_price_avg) := by
  have hanchor : pyOrZero finance.competitor_price_avg = finance.competitor_price_avg := by
    unfold pyOrZero
    split <;> simp_all
  constructor
  · cases er <;> simp [compute_recommended_price, hanchor]
  · intro h
    cases er <;> simp [compute_recommended_price, hanchor, max_eq_right h.le]

/-- C3 witness: with total cost 1, margin 0% and competitor average 5, the
reported cost_plus_price is the competitor average. -/
theorem C3_witness :
    (compute_recommended_price ⟨1, 0, 0, 0, 0⟩ ⟨0, 0, 5⟩ none).cost_plus_price = 5 := by
  apply (C3_cost_plus_price_is_max ⟨1, 0, 0, 0, 0⟩ ⟨0, 0, 5⟩ none).2
  norm_num [CostBreakdown.total_cost_irr]

/-- C4 counterexample: choose_final_price does not fall back to the cost-plus
price for an all_negative elasticity result; at cost_plus_price = 0 and an
all_negative result with optimal_price = 100 it returns 70, not 0. -/
theorem C4_counterexample :
    er_neg.all_negative = true ∧ choose_final_price 0 (some er_neg) ≠ 0 := by
  refine ⟨rfl, ?_⟩
  show (0.7 * er_neg.optimal_price + 0.3 * 0 : ℝ) ≠ 0
  norm_num [er_neg]

/-- C4 amended: the all_negative fallback lives in ai_insights_view, whose
base recommendation is computed without the elasticity result; when the flag
is set the view's final price equals the reported cost_plus_price. -/
theorem C4_view_fallback_to_cost_plus (cb : CostBreakdown) (finance : FinanceParams)
    (er : ElasticityResult) (h : er.all_negative = true) :
    ai_insights_final_price
        ((compute_recommended_price cb finance none).final_suggested_price) (some er) =
      (compute_recommended_price cb finance none).cost_plus_price := by
  simp [ai_insights_final_price, h, compute_recommended_price,
    merge_cost_plus_and_ml_price, choose_final_price]

/-- C4 witness: a concrete instance of the view-level fallback theorem. -/
theorem C4_witness :
    ai_insights_final_price
        ((compute_recommended_price ⟨1, 0, 0, 0, 0⟩ ⟨0, 0, 0⟩ none).final_suggested_price)
        (some er_neg) =
      (compute_recommended_price ⟨1, 0, 0, 0, 0⟩ ⟨0, 0, 0⟩ none).cost_plus_price :=
  C4_view_fallback_to_cost_plus ⟨1, 0, 0, 0, 0⟩ ⟨0, 0, 0⟩ er_neg rfl

/-- C10: choose_final_price returns exactly the convex combination
0.3 * cost_plus + 0.7 * optimal, hence always lies between the two, and
equals the cost-plus price when no elasticity result is supplied. -/
theorem C10_choose_final_price_blend (cost_plus_price : ℝ) (er : ElasticityResult) :
    choose_final_price cost_plus_price (some er) =
      0.3 * cost_plus_price + 0.7 * er.optimal_price ∧
    min cost_plus_price er.optimal_price ≤ choose_final_price cost_plus_price (some er) ∧
    choose_final_price cost_plus_price (some er) ≤ max cost_plus_price er.optimal_price ∧
    choose_final_price cost_plus_price none = cost_plus_price := by
  refine ⟨by show (0.7 * er.optimal_price + 0.3 * cost_plus_price : ℝ) = _; ring, ?_, ?_, rfl⟩
  · show min cost_plus_price er.optimal_price ≤ 0.7 * er.optimal_price + 0.3 * cost_plus_price
    rcases le_total cost_plus_price er.optimal_price with h | h
    · rw [min_eq_left h]; nlinarith
    · rw [min_eq_right h]; nlinarith
  · show 0.7 * er.optimal_price + 0.3 * cost_plus_price ≤ max cost_plus_price er.optimal_price
    rcases le_total cost_plus_price er.optimal_price with h | h
    · rw [max_eq_right h]; nlinarith
    · rw [max_eq_left h]; nlinarith

/-- C5: for every model with positive average price and every grid resolution
of at least one point, compute_optimal_price returns an optimal_price that is
a point of the generated grid within [0.8 avg, 1.5 avg]; max_profit equals the
profit recomputed independently at optimal_price; all_negative is true iff
max_profit is negative; and the selected index is the first maximum of the
profit grid in ascending-price order. -/
theorem C5_optimal_price_in_grid_first_max (model : ElasticityModel)
    (cost_per_unit : ℝ) (num_points : ℕ)
    (havg : 0 < model.avg_price) (hnum : 1 ≤ num_points) :
    (compute_optimal_price model cost_per_unit num_points).optimal_price ∈
      (compute_optimal_price model cost_per_unit num_points).price_grid ∧
    0.8 * model.avg_price ≤
      (compute_optimal_price model cost_per_unit num_points).optimal_price ∧
    (compute_optimal_price model cost_per_unit num_points).optimal_price ≤
      1.5 * model.avg_price ∧
    (compute_optimal_price model cost_per_unit num_points).max_profit =
      ((compute_optimal_price model cost_per_unit num_points).optimal_price - cost_per_unit) *
        Real.exp (model.a + model.b *
          Real.log (compute_optimal_price model cost_per_unit num_points).optimal_price) ∧
    ((compute_optimal_price model cost_per_unit num_points).all_negative = true ↔
      (compute_optimal_price model cost_per_unit num_points).max_profit < 0) ∧
    ∃ i, i < (compute_optimal_price model cost_per_unit num_points).price_grid.length ∧
      (compute_optimal_price model cost_per_unit num_points).optimal_price =
        (compute_optimal_price model cost_per_unit num_points).price_grid.getD i 0 ∧
      (∀ j, j < (compute_optimal_price model cost_per_unit num_points).profit_grid.length →
        (compute_optimal_price model cost_per_unit num_points).profit_grid.getD j 0 ≤
          (compute_optimal_price model cost_per_unit num_points).profit_grid.getD i 0) ∧
      (∀ j, j < i →
        (compute_optimal_price model cost_per_unit num_points).profit_grid.getD j 0 <
          (compute_optimal_price model cost_per_unit num_points).profit_grid.getD i 0) := by
  rw [compute_optimal_price_price_grid, compute_optimal_price_profit_grid,
    compute_optimal_price_optimal_price, compute_optimal_price_max_profit,
    compute_optimal_price_all_negative]
  have hlen : (price_grid_of model num_points).length = num_points :=
    linspace_length _ _ _
  have hplen : (profits_of model cost_per_unit num_points).length = num_points := by
    simp [profits_of, List.length_map, hlen]
  have hne : profits_of model cost_per_unit num_points ≠ [] := by
    intro hcontra
    rw [hcontra] at hplen
    simp at hplen
    omega
  have hidx : max_idx_of model cost_per_unit num_points < num_points := by
    have h := argmax_lt_length _ hne
    rwa [hplen] at h
  have hgl : max_idx_of model cost_per_unit num_points <
      (price_grid_of model num_points).length := by
    rw [hlen]; exact hidx
  have hmem : optimal_price_of model cost_per_unit num_points ∈
      price_grid_of model num_points := by
    unfold optimal_price_of
    exact getD_mem_of_lt _ _ hgl
  have hst : 0.8 * model.avg_price ≤ 1.5 * model.avg_price := by nlinarith
  have hbounds := linspace_mem_bounds (0.8 * model.avg_price) (1.5 * model.avg_price)
    num_points hst _ hmem
  have hmp : max_profit_of model cost_per_unit num_points =
      profit_at model cost_per_unit (optimal_price_of model cost_per_unit num_points) := by
    unfold max_profit_of optimal_price_of profits_of
    exact getD_map_real (profit_at model cost_per_unit) (price_grid_of model num_points)
      (max_idx_of model cost_per_unit num_points) hgl
  refine ⟨hmem, hbounds.1, hbounds.2, ?_, ?_, ?_⟩
  · rw [hmp]; rfl
  · simp
  · refine ⟨max_idx_of model cost_per_unit num_points, hgl, rfl, ?_, ?_⟩
    · intro j hj
      exact argmax_is_max (profits_of model cost_per_unit num_points) j hj
    · intro j hj
      exact argmax_first (profits_of model cost_per_unit num_points) j hj

/-- C5 witness: a concrete instance (model0, unit cost 0, one grid point). -/
theorem C5_witness :
    (compute_optimal_price model0 0 1).optimal_price ∈
      (compute_optimal_price model0 0 1).price_grid :=
  (C5_optimal_price_in_grid_first_max model0 0 1 (by norm_num [model0]) (by norm_num)).1

theorem compute_optimal_price_optimal_price_ci (model : ElasticityModel)
    (cost_per_unit : ℝ) (num_points : ℕ) :
    (compute_optimal_price model cost_per_unit num_points).optimal_price_ci =
      some (match candidate_prices model cost_per_unit num_points with
        | [] => (optimal_price_of model cost_per_unit num_points,
            optimal_price_of model cost_per_unit num_points)
        | p :: ps => (ps.foldl min p, ps.foldl max p)) := rfl

theorem model0_grid : price_grid_of model0 1 = [0.8] := by
  norm_num [price_grid_of, linspace, model0]

theorem model0_profits (c : ℝ) : profits_of model0 c 1 = [0.8 - c] := by
  rw [profits_of, model0_grid]
  simp [profit_at, demand_at, model0, Real.exp_zero]

theorem model0_max_idx (c : ℝ) : max_idx_of model0 c 1 = 0 := by
  rw [max_idx_of, model0_profits]
  rfl

theorem model0_max_profit (c : ℝ) : max_profit_of model0 c 1 = 0.8 - c := by
  unfold max_profit_of
  rw [model0_profits, model0_max_idx]
  rfl

theorem model0_optimal (c : ℝ) : optimal_price_of model0 c 1 = 0.8 := by
  unfold optimal_price_of
  rw [model0_grid, model0_max_idx]
  rfl

/-- C9 counterexample: with all grid profits negative (unit cost 2 against a
grid of one price 0.8), the 90%-of-max threshold exceeds every profit, so the
candidate set is empty and the degenerate repeated-optimal-price fallback IS
taken, refuting the claim that this never happens. -/
theorem C9_counterexample :
    (compute_optimal_price model0 2 1).max_profit < 0 ∧
    candidate_prices model0 2 1 = [] ∧
    (compute_optimal_price model0 2 1).optimal_price_ci =
      some ((compute_optimal_price model0 2 1).optimal_price,
        (compute_optimal_price model0 2 1).optimal_price) := by
  have hcand : candidate_prices model0 2 1 = [] := by
    unfold candidate_prices
    rw [model0_grid, model0_profits, model0_max_profit]
    norm_num [List.filter_cons]
  refine ⟨?_, hcand, ?_⟩
  · rw [compute_optimal_price_max_profit, model0_max_profit]
    norm_num
  · rw [compute_optimal_price_optimal_price_ci, compute_optimal_price_optimal_price, hcand]

/-- C9 amended: provided the maximum profit is non-negative (and only then),
the optimal grid price clears the 90% threshold, so the candidate set is
non-empty and optimal_price_ci is [min, max] of that set; with a negative
maximum profit the threshold exceeds every profit and the fallback is taken
(see the counterexample). -/
theorem C9_price_ci_from_candidates (model : ElasticityModel) (cost_per_unit : ℝ)
    (num_points : ℕ) (havg : 0 < model.avg_price) (hnum : 1 ≤ num_points)
    (hmp : 0 ≤ max_profit_of model cost_per_unit num_points) :
    optimal_price_of model cost_per_unit num_points ∈
      candidate_prices model cost_per_unit num_points ∧
    candidate_prices model cost_per_unit num_points ≠ [] ∧
    ∃ p ps, candidate_prices model cost_per_unit num_points = p :: ps ∧
      (compute_optimal_price model cost_per_unit num_points).optimal_price_ci =
        some (ps.foldl min p, ps.foldl max p) := by
  have hlen : (price_grid_of model num_points).length = num_points :=
    linspace_length _ _ _
  have hplen : (profits_of model cost_per_unit num_points).length = num_points := by
    simp [profits_of, List.length_map, hlen]
  have hne : profits_of model cost_per_unit num_points ≠ [] := by
    intro hcontra
    rw [hcontra] at hplen
    simp at hplen
    omega
  have hidx : max_idx_of model cost_per_unit num_points < num_points := by
    have h := argmax_lt_length _ hne
    rwa [hplen] at h
  have hgl : max_idx_of model cost_per_unit num_points <
      (price_grid_of model num_points).length := by
    rw [hlen]; exact hidx
  have hpl : max_idx_of model cost_per_unit num_points <
      (profits_of model cost_per_unit num_points).length := by
    rw [hplen]; exact hidx
  have hzl : max_idx_of model cost_per_unit num_points <
      ((price_grid_of model num_points).zip
        (profits_of model cost_per_unit num_points)).length := by
    rw [List.length_zip]
    exact lt_min hgl hpl
  have hpair : ((price_grid_of model num_points).zip
        (profits_of model cost_per_unit num_points))[max_idx_of model cost_per_unit
          num_points] =
      ((price_grid_of model num_points)[max_idx_of model cost_per_unit num_points],
        (profits_of model cost_per_unit num_points)[max_idx_of model cost_per_unit
          num_points]) :=
    List.getElem_zip
  have hprofit_elem : (profits_of model cost_per_unit num_points)[max_idx_of model
      cost_per_unit num_points] = max_profit_of model cost_per_unit num_points := by
    rw [max_profit_of, List.getD_eq_getElem _ _ hpl]
  have hgrid_elem : (price_grid_of model num_points)[max_idx_of model cost_per_unit
      num_points] = optimal_price_of model cost_per_unit num_points := by
    rw [optimal_price_of, List.getD_eq_getElem _ _ hgl]
  have hthr : max_profit_of model cost_per_unit num_points * 0.9 ≤
      max_profit_of model cost_per_unit num_points := by nlinarith
  have hmem : optimal_price_of model cost_per_unit num_points ∈
      candidate_prices model cost_per_unit num_points := by
    unfold candidate_prices
    apply List.mem_map.2
    refine ⟨((price_grid_of model num_points)[max_idx_of model cost_per_unit
        num_points],
      (profits_of model cost_per_unit num_points)[max_idx_of model cost_per_unit
        num_points]), ?_, ?_⟩
    · apply List.mem_filter.2
      refine ⟨?_, ?_⟩
      · rw [← hpair]
        exact List.getElem_mem hzl
      · rw [decide_eq_true_eq, hprofit_elem]
        exact hthr
    · exact hgrid_elem
  refine ⟨hmem, List.ne_nil_of_mem hmem, ?_⟩
  rcases hcand : candidate_prices model cost_per_unit num_points with _ | ⟨p, ps⟩
  · rw [hcand] at hmem
    simp at hmem
  · refine ⟨p, ps, rfl, ?_⟩
    rw [compute_optimal_price_optimal_price_ci, hcand]

/-- C9 witness: with unit cost 0 the single grid profit 0.8 is non-negative,
so the optimal price is a member of the candidate set. -/
theorem C9_witness :
    optimal_price_of model0 0 1 ∈ candidate_prices model0 0 1 :=
  (C9_price_ci_from_candidates model0 0 1 (by norm_num [model0]) (by norm_num)
    (by rw [model0_max_profit]; norm_num)).1

theorem getD_map_range_int (f : ℕ → ℤ) (n i : ℕ) (h : i < n) :
    ((List.range n).map f).getD i 0 = f i := by
  rw [List.getD_eq_getElem _ _ (by simpa using h)]
  simp

theorem getD_map_range_real (f : ℕ → ℝ) (n i : ℕ) (h : i < n) :
    ((List.range n).map f).getD i 0 = f i := by
  rw [List.getD_eq_getElem _ _ (by simpa using h)]
  simp

/-- C7: on at least 5 date-ascending history points and a positive horizon,
forecast_fx (default z = 1.96) returns exactly horizon_days forecast dates,
each one calendar day after the previous starting the day after the last
historical date, and forecast_low[i] ≤ forecast_rates[i] ≤ forecast_high[i]
for every index. -/
theorem C7_forecast_fx_shape (points : List FxHistoryPoint) (horizon_days : ℤ)
    (hlen : 5 ≤ points.length)
    (hsorted : points.Pairwise fun p q => p.date ≤ q.date)
    (hh : 0 < horizon_days) :
    ∃ res, forecast_fx points horizon_days 1.96 = .ok res ∧
      res.forecast_dates.length = horizon_days.toNat ∧
      (∀ i, i < horizon_days.toNat →
        res.forecast_dates.getD i 0 = (points.getLastD ⟨0, 0⟩).date + (i : ℤ) + 1) ∧
      (∀ i, i < horizon_days.toNat →
        res.forecast_low.getD i 0 ≤ res.forecast_rates.getD i 0 ∧
          res.forecast_rates.getD i 0 ≤ res.forecast_high.getD i 0) := by
  obtain ⟨⟨intercept, slope, r2⟩, hfit⟩ :
      ∃ isr : ℝ × ℝ × ℝ, fit_linear_trend points = .ok isr := by
    unfold fit_linear_trend
    rw [if_neg (not_lt.2 hlen)]
    exact ⟨_, rfl⟩
  unfold forecast_fx
  rw [if_neg (not_le.2 hh), hfit]
  refine ⟨_, rfl, ?_, ?_, ?_⟩
  · simp
  · intro i hi
    exact getD_map_range_int _ _ i hi
  · intro i hi
    have hsig : (0 : ℝ) ≤
        (if 0 < max (points.length - 2) 1 then
          Real.sqrt ((List.zipWith (fun t y =>
            (y - (intercept + slope * t)) * (y - (intercept + slope * t)))
              (points.map fun p => ((p.date - (points.headD ⟨0, 0⟩).date : ℤ) : ℝ))
              (points.map fun p => p.rate)).sum / ((max (points.length - 2) 1 : ℕ) : ℝ))
        else 0) := by
      split
      · exact Real.sqrt_nonneg _
      · exact le_refl 0
    constructor
    · rw [getD_map_range_real _ _ i hi, getD_map_range_real _ _ i hi]
      nlinarith [hsig]
    · rw [getD_map_range_real _ _ i hi, getD_map_range_real _ _ i hi]
      nlinarith [hsig]

/-- C7 witness: a concrete instance with 5 consecutive-day points and a
one-day horizon. -/
theorem C7_witness :
    ∃ res, forecast_fx points5 1 1.96 = .ok res ∧
      res.forecast_dates.length = (1 : ℤ).toNat ∧
      (∀ i, i < (1 : ℤ).toNat →
        res.forecast_dates.getD i 0 = (points5.getLastD ⟨0, 0⟩).date + (i : ℤ) + 1) ∧
      (∀ i, i < (1 : ℤ).toNat →
        res.forecast_low.getD i 0 ≤ res.forecast_rates.getD i 0 ∧
          res.forecast_rates.getD i 0 ≤ res.forecast_high.getD i 0) :=
  C7_forecast_fx_shape points5 1 (by norm_num [points5])
    (by norm_num [points5, List.pairwise_cons]) (by norm_num)

theorem fit_ridge_recs3_lam1 : _fit_log_log_ridge recs3 1 = .ok (0, 0, 0, 0) := by
  norm_num [_fit_log_log_ridge, ridge_xs, ridge_ys, ridge_det, ridge_a, ridge_b, ridge_r2,
    ridge_ss_tot, ridge_ss_res, ridge_stderr_b, valid_sales, recs3, List.filter, Real.log_one]

theorem fit_recs3_lam1 : fit_elasticity_for_product recs3 1 (-3, -0.3) = .ok model3 := by
  unfold fit_elasticity_for_product
  rw [fit_ridge_recs3_lam1]
  norm_num [np_clip, recs3, List.filter, model3, max_def, min_def]

theorem fit_ridge_recs4_lam1 : _fit_log_log_ridge recs4 1 = .ok (0, 0, 0, 0) := by
  norm_num [_fit_log_log_ridge, ridge_xs, ridge_ys, ridge_det, ridge_a, ridge_b, ridge_r2,
    ridge_ss_tot, ridge_ss_res, ridge_stderr_b, valid_sales, recs4, recs3, List.filter,
    Real.log_one]

theorem fit_recs4_lam1 : fit_elasticity_for_product recs4 1 (-3, -0.3) = .ok model4 := by
  unfold fit_elasticity_for_product
  rw [fit_ridge_recs4_lam1]
  norm_num [np_clip, recs4, recs3, List.filter, model4, max_def, min_def]

theorem ridge_det_identical (records : List SalesRecord) (lam : ℝ) (p0 : ℚ)
    (hsame : ∀ r ∈ valid_sales records, r.price = p0) :
    ridge_det records lam =
      lam * (((ridge_xs records).length : ℝ) * (Real.log (p0 : ℝ) * Real.log (p0 : ℝ))
        + ((ridge_xs records).length : ℝ) + lam) := by
  have hxs : ∀ x ∈ ridge_xs records, x = Real.log (p0 : ℝ) := by
    intro x hx
    obtain ⟨r, hr, rfl⟩ := List.mem_map.1 hx
    rw [hsame r hr]
  have hsum : (ridge_xs records).sum = ((ridge_xs records).length : ℝ) * Real.log (p0 : ℝ) := by
    rw [List.sum_eq_card_nsmul _ _ hxs, nsmul_eq_mul]
  have hsq : ((ridge_xs records).map fun x => x * x).sum =
      ((ridge_xs records).length : ℝ) * (Real.log (p0 : ℝ) * Real.log (p0 : ℝ)) := by
    have h2 : ∀ x ∈ (ridge_xs records).map fun x => x * x,
        x = Real.log (p0 : ℝ) * Real.log (p0 : ℝ) := by
      intro x hx
      obtain ⟨y, hy, rfl⟩ := List.mem_map.1 hx
      rw [hxs y hy]
    rw [List.sum_eq_card_nsmul _ _ h2, List.length_map, nsmul_eq_mul]
  unfold ridge_det
  rw [hsum, hsq]
  ring

/-- C6 counterexample: on three valid records all priced 1, with positive
regularization strength 1, the fit SUCCEEDS (no DegenerateFit, which the code
does not even define), refuting the claim that it fails for every λ ≥ 0. -/
theorem C6_counterexample :
    (fit_elasticity_for_product recs3 1 (-3, -0.3)).toOption.isSome = true := by
  rw [fit_recs3_lam1]
  rfl

/-- C6 amended: on ≥3 valid records that all share one price, the fit fails
only at λ = 0 — with np.linalg.inv's generic singular-matrix error, not a
DegenerateFit — and for every λ > 0 the ridge-regularized fit succeeds and
returns a model. -/
theorem C6_identical_prices_fit (records : List SalesRecord) (lam : ℝ)
    (bounds : ℝ × ℝ) (p0 : ℚ)
    (hlen : 3 ≤ (valid_sales records).length)
    (hsame : ∀ r ∈ valid_sales records, r.price = p0) :
    (lam = 0 → fit_elasticity_for_product records lam bounds = .error "Singular matrix") ∧
    (0 < lam → (fit_elasticity_for_product records lam bounds).toOption.isSome = true) := by
  have hxlen : (ridge_xs records).length = (valid_sales records).length :=
    List.length_map _ _
  have hnotlt : ¬ ((ridge_xs records).length < 3) := by omega
  constructor
  · intro h0
    subst h0
    have hdet : ridge_det records 0 = 0 := by
      rw [ridge_det_identical records 0 p0 hsame]
      ring
    unfold fit_elasticity_for_product _fit_log_log_ridge
    rw [if_neg hnotlt, if_pos hdet]
  · intro hlam
    have hdet : ridge_det records lam ≠ 0 := by
      rw [ridge_det_identical records lam p0 hsame]
      have hn3 : (3 : ℝ) ≤ ((ridge_xs records).length : ℝ) := by
        exact_mod_cast hxlen ▸ hlen
      have hx2 : 0 ≤ ((ridge_xs records).length : ℝ) *
          (Real.log (p0 : ℝ) * Real.log (p0 : ℝ)) :=
        mul_nonneg (by linarith) (mul_self_nonneg _)
      have hpos : 0 < ((ridge_xs records).length : ℝ) *
          (Real.log (p0 : ℝ) * Real.log (p0 : ℝ)) + ((ridge_xs records).length : ℝ)
            + lam := by linarith
      exact ne_of_gt (mul_pos hlam hpos)
    have hrecne : records ≠ [] := by
      intro hnil
      rw [hnil] at hlen
      simp [valid_sales] at hlen
    obtain ⟨r0, rest, hrec⟩ := List.exists_cons_of_ne_nil hrecne
    unfold fit_elasticity_for_product _fit_log_log_ridge
    rw [if_neg hnotlt, if_neg hdet, hrec]
    rfl

/-- C6 witness: at λ = 0 on the three identically-priced records the fit
fails with the singular-matrix error. -/
theorem C6_witness :
    fit_elasticity_for_product recs3 0 (-3, -0.3) = .error "Singular matrix" :=
  (C6_identical_prices_fit recs3 0 (-3, -0.3) 1 (by decide) (by decide)).1 rfl

/-- C8 counterexample: on recs4 (three valid records priced 1 plus one record
with price 2 but zero units_sold) the fit succeeds with avg_price 5/4, while
the mean price of the fit-filtered records is 1: the averaging set is NOT the
fit's filtered set. -/
theorem C8_counterexample :
    (fit_elasticity_for_product recs4 1 (-3, -0.3)).toOption.map
        (fun m => m.avg_price) = some (5 / 4) ∧
    ((valid_sales recs4).map fun rec => (rec.price : ℝ)).sum /
        ((valid_sales recs4).length : ℝ) = 1 ∧
    (5 / 4 : ℝ) ≠ 1 := by
  refine ⟨?_, ?_, by norm_num⟩
  · rw [fit_recs4_lam1]
    rfl
  · norm_num [valid_sales, recs4, recs3, List.filter]

/-- C8 amended: the avg_price stored by fit_elasticity_for_product is the
mean of the prices of the records with price > 0 (regardless of units_sold),
a superset of the records used for the log-log fit. -/
theorem C8_avg_price_over_priced_records (records : List SalesRecord) (lam : ℝ)
    (bounds : ℝ × ℝ) (m : ElasticityModel)
    (h : fit_elasticity_for_product records lam bounds = .ok m) :
    m.avg_price =
      (((records.filter fun rec => decide (0 < rec.price)).map
          fun rec => (rec.price : ℝ)).sum)
        / (((records.filter fun rec => decide (0 < rec.price)).length : ℝ)) := by
  unfold fit_elasticity_for_product at h
  cases hfit : _fit_log_log_ridge records lam with
  | error e =>
    rw [hfit] at h
    simp at h
  | ok t =>
    obtain ⟨a, b_raw, r2, stderr⟩ := t
    rw [hfit] at h
    cases records with
    | nil => simp at h
    | cons r0 rest =>
      have h2 := congrArg (fun e : Except String ElasticityModel =>
        match e with
        | .ok mm => mm.avg_price
        | .error _ => 0) h
      dsimp at h2
      exact h2.symm

/-- C8 witness: a concrete instance of the amended average-price theorem. -/
theorem C8_witness :
    model4.avg_price =
      (((recs4.filter fun rec => decide (0 < rec.price)).map
          fun rec => (rec.price : ℝ)).sum)
        / (((recs4.filter fun rec => decide (0 < rec.price)).length : ℝ)) :=
  C8_avg_price_over_priced_records recs4 1 (-3, -0.3) model4 fit_recs4_lam1

end SmartPricing
